import Mathlib

/-!
Shallow embedding of the color resolution engine of the
vscode-theme-converter repository (src/base.ts, src/providers/kate.ts, the
docgen converter and the theme downloader), together with the fragment of
the tinycolor2 library that the engine calls (hex parsing, setAlpha,
toHexString, lighten, darken, getLuminance).

Modelling conventions:
* JavaScript IEEE-754 doubles are modelled as exact rationals.  Every
  concrete evaluation performed by a theorem below stays at inputs where
  double arithmetic and exact rational arithmetic produce the same final
  strings (channel values 0, 204 and 255, alphas 0, 1/2, 4/5 and 1).
* JavaScript division by zero yields NaN or an infinity; rational division
  by zero yields 0.  No theorem below evaluates a division by zero.
* Math.pow (x, 2.4) is modelled exactly: 2.4 = 12/5, so the value is the
  nonnegative rational fifth root of x^12 when that root exists in the
  rationals, and 0 otherwise.  Theorems only evaluate it at x = 1, where
  the model and the double computation agree exactly.
* Of the tinycolor2 string matchers only the hex forms (hex8, hex6, hex4,
  hex3, with optional leading hash sign) are modelled; CSS function
  strings and named colors are mapped to the invalid-color result.  Every
  color string reaching the parser in the theorems below is a hex string.
* The JavaScript failure modes of the engine (calling the missing defines
  method of the plain-object lookup contexts, and exhaustion of the call
  stack by unbounded recursion) are modelled with Except; recursion depth
  is made explicit through a fuel parameter, one unit per nested
  resolveColorValue call, so that a statement holding for every fuel
  describes the unbounded recursion of the JavaScript original.
-/

attribute [local semireducible] Rat.mul Rat.add Rat.sub Rat.inv Rat.ofScientific

namespace VTC

/-! ## JavaScript numeric primitives -/

/-- Math.round: round half up. -/
def jsRound (q : ℚ) : ℤ := ⌊q + 1/2⌋

/-- Truncation toward zero, as performed by parseInt on a number. -/
def jsTrunc (q : ℚ) : ℤ := if 0 ≤ q then ⌊q⌋ else -⌊-q⌋

/-- The JavaScript remainder operator (sign of the dividend). -/
def jsMod (a b : ℚ) : ℚ := a - b * (jsTrunc (a / b) : ℚ)

/-- tinycolor clamp01. -/
def clamp01 (q : ℚ) : ℚ := min 1 (max 0 q)

/-- tinycolor boundAlpha: out-of-range alpha collapses to 1. -/
def boundAlpha (a : ℚ) : ℚ := if a < 0 ∨ 1 < a then 1 else a

/-- The nonnegative integer fifth root, when exact. -/
def npow5Root (n : ℕ) : Option ℕ := (List.range (n + 2)).find? (fun k => decide (k ^ 5 = n))

/-- Math.pow (x, 2.4) = x ^ (12/5): exact rational fifth root of x ^ 12
when it exists, 0 otherwise.  All evaluations below happen at x = 1. -/
def mathPow2p4 (x : ℚ) : ℚ :=
  let y := x ^ 12
  match npow5Root y.num.toNat, npow5Root y.den with
  | some a, some b => (a : ℚ) / (b : ℚ)
  | _, _ => 0

/-! ## CSS unit values

tinycolor convertToPercentage turns a number not exceeding 1 into a
percentage string; bound01 then branches on whether it received a
percentage string.  The sum type records which of the two shapes flows in.
-/

inductive CSSUnit where
  | num (q : ℚ)
  | percentStr (q : ℚ)
deriving DecidableEq, Repr

/-- tinycolor bound01, covering the numeric branch and the
percentage-string branch (parseInt truncates). -/
def bound01 : CSSUnit → ℚ → ℚ
  | .num n, mx =>
    let n := min mx (max 0 n)
    if |n - mx| < 1/1000000 then 1 else jsMod n mx / mx
  | .percentStr x, mx =>
    let n := min mx (max 0 x)
    let n := (jsTrunc (n * mx) : ℚ) / 100
    if |n - mx| < 1/1000000 then 1 else jsMod n mx / mx

/-- tinycolor convertToPercentage. -/
def convertToPercentage (q : ℚ) : CSSUnit :=
  if q ≤ 1 then .percentStr (q * 100) else .num q

/-! ## RGB and HSL conversions (tinycolor) -/

def hue2rgb (p q t : ℚ) : ℚ :=
  let t := if t < 0 then t + 1 else t
  let t := if t > 1 then t - 1 else t
  if t < 1/6 then p + (q - p) * 6 * t
  else if t < 1/2 then q
  else if t < 2/3 then p + (q - p) * (2/3 - t) * 6
  else p

def rgbToRgb (r g b : ℚ) : ℚ × ℚ × ℚ :=
  (bound01 (.num r) 255 * 255, bound01 (.num g) 255 * 255, bound01 (.num b) 255 * 255)

def rgbToHsl (r g b : ℚ) : ℚ × ℚ × ℚ :=
  let r := bound01 (.num r) 255
  let g := bound01 (.num g) 255
  let b := bound01 (.num b) 255
  let mx := max r (max g b)
  let mn := min r (min g b)
  let l := (mx + mn) / 2
  if mx = mn then (0, 0, l)
  else
    let d := mx - mn
    let s := if l > 1/2 then d / (2 - mx - mn) else d / (mx + mn)
    let h := if mx = r then (g - b) / d + (if g < b then 6 else 0)
      else if mx = g then (b - r) / d + 2
      else (r - g) / d + 4
    (h / 6, s, l)

def hslToRgb (h : ℚ) (s l : CSSUnit) : ℚ × ℚ × ℚ :=
  let h := bound01 (.num h) 360
  let s := bound01 s 100
  let l := bound01 l 100
  if s = 0 then (l * 255, l * 255, l * 255)
  else
    let q := if l < 1/2 then l * (1 + s) else l + s - l * s
    let p := 2 * l - q
    (hue2rgb p q (h + 1/3) * 255, hue2rgb p q h * 255, hue2rgb p q (h - 1/3) * 255)

/-! ## Hex digits -/

def isLowerHexDigit (c : Char) : Bool :=
  c.isDigit || (decide (97 ≤ c.toNat) && decide (c.toNat ≤ 102))

def hexDigitVal (c : Char) : ℕ := if c.isDigit then c.toNat - 48 else c.toNat - 87

/-- tinycolor parseIntFromHex on a list of (lowercase) hex digits. -/
def parseIntFromHex (s : List Char) : ℕ := s.foldl (fun acc c => acc * 16 + hexDigitVal c) 0

def hexChar (n : ℕ) : Char := "0123456789abcdef".data.getD n (Char.ofNat 48)

/-- tinycolor pad2 composed with Number.toString(16), for byte values. -/
def pad2Hex (n : ℕ) : String := String.mk [hexChar (n / 16 % 16), hexChar (n % 16)]

/-! ## tinycolor instances -/

structure Tinycolor where
  r : ℚ
  g : ℚ
  b : ℚ
  a : ℚ
  ok : Bool
deriving DecidableEq, Repr

structure HSLA where
  h : ℚ
  s : ℚ
  l : ℚ
  a : ℚ
deriving DecidableEq, Repr

/-- The parsed shapes inputToRGB receives: an rgb-component object (from
the hex matchers), an hsl object (from toHsl), or an invalid input. -/
inductive ParsedInput where
  | rgbIn (r g b : ℚ) (a : Option ℚ)
  | hslIn (h s l : ℚ) (a : Option ℚ)
  | invalid
deriving DecidableEq, Repr

/-- JavaScript string whitespace, as far as the trim regexes of
tinycolor are concerned (the strings the engine parses contain none). -/
def isJsSpace (c : Char) : Bool :=
  decide (c = ' ') || decide (c = Char.ofNat 9) || decide (c = Char.ofNat 10) ||
    decide (c = Char.ofNat 13)

/-- Trimming and lowercasing of the input string, at the character
level. -/
def jsTrimLower (s : String) : List Char :=
  (((s.data.dropWhile isJsSpace).reverse.dropWhile isJsSpace).reverse).map Char.toLower

/-- tinycolor stringInputToObject, restricted to the hex matchers
(hex8 = RRGGBBAA, hex6, hex4 = RGBA, hex3, optional leading hash sign,
after trimming and lowercasing).  Other strings are invalid here. -/
def stringInputToObject (s : String) : ParsedInput :=
  let cs := jsTrimLower s
  let core := match cs with
    | '#' :: rest => rest
    | _ => cs
  if core.all isLowerHexDigit then
    if core.length = 8 then
      .rgbIn (parseIntFromHex (core.take 2)) (parseIntFromHex ((core.drop 2).take 2))
        (parseIntFromHex ((core.drop 4).take 2)) (some ((parseIntFromHex (core.drop 6) : ℚ) / 255))
    else if core.length = 6 then
      .rgbIn (parseIntFromHex (core.take 2)) (parseIntFromHex ((core.drop 2).take 2))
        (parseIntFromHex ((core.drop 4).take 2)) none
    else
      match core with
      | [r, g, b, a] =>
        .rgbIn (parseIntFromHex [r, r]) (parseIntFromHex [g, g]) (parseIntFromHex [b, b])
          (some ((parseIntFromHex [a, a] : ℚ) / 255))
      | [r, g, b] =>
        .rgbIn (parseIntFromHex [r, r]) (parseIntFromHex [g, g]) (parseIntFromHex [b, b]) none
      | _ => .invalid
  else .invalid

/-- tinycolor inputToRGB on a parsed shape. -/
def inputToRGB (c : ParsedInput) : Tinycolor :=
  match c with
  | .rgbIn r g b a? =>
    let rgb := rgbToRgb r g b
    { r := min 255 (max rgb.1 0), g := min 255 (max rgb.2.1 0), b := min 255 (max rgb.2.2 0),
      a := boundAlpha (a?.getD 1), ok := true }
  | .hslIn h s l a? =>
    let rgb := hslToRgb h (convertToPercentage s) (convertToPercentage l)
    { r := min 255 (max rgb.1 0), g := min 255 (max rgb.2.1 0), b := min 255 (max rgb.2.2 0),
      a := boundAlpha (a?.getD 1), ok := true }
  | .invalid =>
    { r := min 255 (max 0 0), g := min 255 (max 0 0), b := min 255 (max 0 0),
      a := boundAlpha 1, ok := false }

/-- The tinycolor constructor rounds channel values below 1. -/
def roundSub1 (t : Tinycolor) : Tinycolor :=
  { t with r := if t.r < 1 then (jsRound t.r : ℚ) else t.r,
           g := if t.g < 1 then (jsRound t.g : ℚ) else t.g,
           b := if t.b < 1 then (jsRound t.b : ℚ) else t.b }

/-- tinycolor2 applied to a string. -/
def tinycolor (s : String) : Tinycolor := roundSub1 (inputToRGB (stringInputToObject s))

/-- tinycolor2 applied to an hsl object (as built by lighten and darken). -/
def tinycolorOfHsl (c : HSLA) : Tinycolor :=
  roundSub1 (inputToRGB (.hslIn c.h c.s c.l (some c.a)))

namespace Tinycolor

def toHsl (t : Tinycolor) : HSLA :=
  let hsl := rgbToHsl t.r t.g t.b
  { h := hsl.1 * 360, s := hsl.2.1, l := hsl.2.2, a := t.a }

def setAlpha (t : Tinycolor) (v : ℚ) : Tinycolor := { t with a := boundAlpha v }

/-- toHexString serializes only the three color channels; the alpha
channel is not part of the output. -/
def toHexString (t : Tinycolor) : String :=
  "#" ++ pad2Hex (jsRound t.r).toNat ++ pad2Hex (jsRound t.g).toNat ++ pad2Hex (jsRound t.b).toNat

/-- tinycolor getLuminance (WCAG relative luminance, on the rounded
channels returned by toRgb). -/
def getLuminance (t : Tinycolor) : ℚ :=
  let chan := fun (c : ℚ) =>
    let cs := (jsRound c : ℚ) / 255
    if cs ≤ 0.03928 then cs / 12.92 else mathPow2p4 ((cs + 0.055) / 1.055)
  0.2126 * chan t.r + 0.7152 * chan t.g + 0.0722 * chan t.b

/-- tinycolor lighten (the zero amount is kept, other falsy amounts
cannot arise for rational inputs). -/
def lighten (t : Tinycolor) (amount : ℚ) : Tinycolor :=
  let amount := if amount = 0 then 0 else amount
  let hsl := t.toHsl
  tinycolorOfHsl { hsl with l := clamp01 (hsl.l + amount / 100) }

/-- tinycolor darken. -/
def darken (t : Tinycolor) (amount : ℚ) : Tinycolor :=
  let amount := if amount = 0 then 0 else amount
  let hsl := t.toHsl
  tinycolorOfHsl { hsl with l := clamp01 (hsl.l - amount / 100) }

end Tinycolor

/-! ## The color value model (src/base.ts)

A ColorValue is a color literal or identifier string, or a derived color
transform.  The source splits the transforms into a separate tagged-union
type ColorTransform; the two types are mutually defined here.
-/

mutual

inductive ColorValue where
  | str (s : String)
  | transform (t : ColorTransform)

inductive ColorTransform where
  | darkenT (value : ColorValue) (factor : ℚ)
  | lightenT (value : ColorValue) (factor : ℚ)
  | transparentT (value : ColorValue) (factor : ℚ)
  | oneOfT (values : List ColorValue)
  | lessProminentT (value background : ColorValue) (factor transparency : ℚ)
  | ifDefinedThenElseT (ifId : String) (thenValue elseValue : ColorValue)

end

/-- The values resolveColorValue can receive: a ColorValue, the explicit
null, or the undefined produced by a missing lookup. -/
inductive JsValue where
  | null
  | undefinedV
  | cv (c : ColorValue)

/-- JavaScript failure modes of the engine: stack exhaustion by unbounded
recursion, and the TypeError raised by calling theme.defines when the
lookup context is one of the plain objects the converters build. -/
inductive EvalErr where
  | stackOverflow
  | definesNotAFunction
deriving DecidableEq, Repr

abbrev Res := Except EvalErr (Option String)

/-- A lookup context (Theme Overlay): a JavaScript plain object mapping
identifiers to color values, modelled as an association list whose first
matching key wins on lookup. -/
abbrev Ctx := List (String × ColorValue)

/-- Property read on a plain object. -/
def lookupKey {β : Type} : List (String × β) → String → Option β
  | [], _ => none
  | p :: t, k => if p.1 = k then some p.2 else lookupKey t k

/-- theme[colorValue]: a missing property reads as undefined. -/
def ctxGet (ctx : Ctx) (k : String) : JsValue :=
  match lookupKey ctx k with
  | some v => .cv v
  | none => .undefinedV

/-- JavaScript truthiness of a string-or-undefined value: undefined and
the empty string are falsy. -/
def strTruthy : Option String → Bool
  | none => false
  | some s => if s = "" then false else true

/-- Color.getLighterColor (src/base.ts): a falsy factor (0) falls back to
0.5, then the foreground is lightened by factor * (lum2 - lum1) / lum2. -/
def getLighterColor (of relative : Tinycolor) (factor : ℚ) : Tinycolor :=
  if of.getLuminance > relative.getLuminance then of
  else
    let f := if factor = 0 then 1/2 else factor
    let lum1 := of.getLuminance
    let lum2 := relative.getLuminance
    of.lighten (f * (lum2 - lum1) / lum2)

/-- Color.getDarkerColor (src/base.ts). -/
def getDarkerColor (of relative : Tinycolor) (factor : ℚ) : Tinycolor :=
  if of.getLuminance < relative.getLuminance then of
  else
    let f := if factor = 0 then 1/2 else factor
    let lum1 := of.getLuminance
    let lum2 := relative.getLuminance
    of.darken (f * (lum1 - lum2) / lum1)

/-- Color.fromHex(color).transparent(factor) (src/base.ts): evaluates to a
string at registration time. -/
def colorFromHexTransparent (color : String) (factor : ℚ) : String :=
  ((tinycolor color).setAlpha factor).toHexString

/-- The for-of loop of the OneOf case of executeTransform: return the
first truthy resolved candidate, undefined after the loop. -/
def oneOfLoop (rec : ColorValue → Res) : List ColorValue → Res
  | [] => .ok none
  | c :: cs =>
    match rec c with
    | .error e => .error e
    | .ok color => if strTruthy color then .ok color else oneOfLoop rec cs

/-- executeTransform (src/base.ts), parameterized by the resolver it
recurses through (the source calls the global resolveColorValue with the
same theme argument).  The IfDefinedThenElse case evaluates
theme.defines(transform.if); the lookup contexts this program constructs
are plain objects without a defines method, so the call throws, modelled
by the definesNotAFunction error. -/
def executeTransform (rec : ColorValue → Res) : ColorTransform → Res
  | .darkenT value factor =>
    match rec value with
    | .error e => .error e
    | .ok none => .ok none
    | .ok (some color) =>
      if color = "" then .ok none
      else .ok (some (((tinycolor color).darken factor).toHexString))
  | .lightenT value factor =>
    match rec value with
    | .error e => .error e
    | .ok none => .ok none
    | .ok (some color) =>
      if color = "" then .ok none
      else .ok (some (((tinycolor color).lighten factor).toHexString))
  | .transparentT value factor =>
    match rec value with
    | .error e => .error e
    | .ok none => .ok none
    | .ok (some color) =>
      if color = "" then .ok none
      else .ok (some (((tinycolor color).setAlpha factor).toHexString))
  | .oneOfT values => oneOfLoop rec values
  | .ifDefinedThenElseT _ _ _ => .error .definesNotAFunction
  | .lessProminentT value background factor transparency =>
    match rec value with
    | .error e => .error e
    | .ok none => .ok none
    | .ok (some fromS) =>
      if fromS = "" then .ok none
      else
        match rec background with
        | .error e => .error e
        | .ok bg =>
          match bg with
          | none => .ok (some (((tinycolor fromS).setAlpha (factor * transparency)).toHexString))
          | some bgS =>
            if bgS = "" then
              .ok (some (((tinycolor fromS).setAlpha (factor * transparency)).toHexString))
            else
              let tFrom := tinycolor fromS
              let tBg := tinycolor bgS
              if tFrom.getLuminance < tBg.getLuminance then
                .ok (some (((getLighterColor tFrom tBg factor).setAlpha transparency).toHexString))
              else
                .ok (some (((getDarkerColor tFrom tBg factor).setAlpha transparency).toHexString))

/-- resolveColorValue (src/base.ts), with explicit recursion fuel: one
unit per nested call.  With fuel out we report the stack overflow the
JavaScript recursion would eventually hit; a statement that holds for
every fuel therefore describes the original unbounded recursion. -/
def resolveFuel : ℕ → JsValue → Ctx → Res
  | 0, _, _ => .error .stackOverflow
  | _ + 1, .null, _ => .ok none
  | _ + 1, .undefinedV, _ => .ok none
  | fuel + 1, .cv (.str s), ctx =>
    if s.data.head? = some '#' then .ok (some s)
    else resolveFuel fuel (ctxGet ctx s) ctx
  | fuel + 1, .cv (.transform t), ctx =>
    executeTransform (fun v => resolveFuel fuel (.cv v) ctx) t

/-! ## The color registry (src/base.ts registerColor / schemes) -/

inductive Variant where
  | light
  | dark
  | hcDark
  | hcLight
deriving DecidableEq, Repr

/-- The defaults record passed to registerColor; null entries are none. -/
structure ColorDefaults where
  light : Option ColorValue
  dark : Option ColorValue
  hcDark : Option ColorValue
  hcLight : Option ColorValue

/-- The four per-variant registry tables (the schemes global). -/
structure Schemes where
  dark : Ctx
  hcDark : Ctx
  hcLight : Ctx
  light : Ctx

def Schemes.get (s : Schemes) : Variant → Ctx
  | .light => s.light
  | .dark => s.dark
  | .hcDark => s.hcDark
  | .hcLight => s.hcLight

def ColorDefaults.get (d : ColorDefaults) : Variant → Option ColorValue
  | .light => d.light
  | .dark => d.dark
  | .hcDark => d.hcDark
  | .hcLight => d.hcLight

def emptySchemes : Schemes := { dark := [], hcDark := [], hcLight := [], light := [] }

/-- JavaScript truthiness of a ColorValue: only the empty string is
falsy (transform objects are always truthy). -/
def cvFalsy : ColorValue → Bool
  | .str s => if s = "" then true else false
  | .transform _ => false

/-- Truthiness of a possibly absent or null per-variant default. -/
def jsFalsy : Option ColorValue → Bool
  | none => true
  | some c => cvFalsy c

/-- Property assignment obj[k] = v on a plain object: replace the value
of an existing key, otherwise append the new key. -/
def objSet {β : Type} (t : List (String × β)) (k : String) (v : β) : List (String × β) :=
  if t.any (fun p => decide (p.1 = k)) then t.map (fun p => if p.1 = k then (k, v) else p)
  else t ++ [(k, v)]

/-- One iteration of the for-in loop of registerColor: falsy defaults are
skipped, truthy ones are written under the registered identifier. -/
def applyDefault (table : Ctx) (id : String) (v : Option ColorValue) : Ctx :=
  match v with
  | none => table
  | some c => if cvFalsy c then table else objSet table id c

/-- registerColor (src/base.ts): returns the identifier and the updated
schemes state.  The description and the optional trailing parameters are
not used by the body, exactly as in the source. -/
def registerColor (id : String) (defaults : Option ColorDefaults) (description : String)
    (needsTransparency : Option Bool) (deprecationMessage : Option String)
    (s : Schemes) : String × Schemes :=
  match defaults with
  | none => (id, s)
  | some d =>
    (id,
      { dark := applyDefault s.dark id d.dark
        hcDark := applyDefault s.hcDark id d.hcDark
        hcLight := applyDefault s.hcLight id d.hcLight
        light := applyDefault s.light id d.light })

/-! ## Theme overlay and include merge -/

/-- The JavaScript object spread pair: shallow copy of a, then every
entry of b assigned over it in order. -/
def jsSpread {β : Type} (a b : List (String × β)) : List (String × β) :=
  b.foldl (fun acc p => objSet acc p.1 p.2) a

/-- The lookup context both converters build: themeColors is the spread
of the chosen variant registry table with the theme color overrides
(which are literal strings). -/
def themeColors (baseTheme : Ctx) (colors : List (String × String)) : Ctx :=
  jsSpread baseTheme (colors.map (fun p => (p.1, ColorValue.str p.2)))

structure TokenSettings where
  foreground : Option String
  bold : Option Bool
  italic : Option Bool
  underline : Option Bool
  fontStyle : Option String

structure TokenColor where
  scope : String ⊕ List String
  settings : TokenSettings

/-- A VS Code theme file as used by the converters.  The include path
field, which only locates the base theme file inside the package, is
omitted; the merge below receives the already loaded base theme. -/
structure VSCodeTheme where
  type : Option Variant
  name : String
  colors : List (String × String)
  tokenColors : List TokenColor

/-- The include merge of downloadTheme (theme-finder): derived color
overrides spread over the included base colors, and the token rule lists
concatenated with the derived rules first. -/
def includeMerge (vscodeTheme includedTheme : VSCodeTheme) : VSCodeTheme :=
  { vscodeTheme with
    colors := jsSpread includedTheme.colors vscodeTheme.colors
    tokenColors := vscodeTheme.tokenColors ++ includedTheme.tokenColors }

/-! ## Spec-side predicates and concrete registry data -/

/-- Modelled from the spec: color strings exchanged across the external
boundary are 6-digit or 8-digit hex strings, lowercase or uppercase. -/
def specBoundaryHexFormat (s : String) : Bool :=
  match s.data with
  | '#' :: rest =>
    (decide (rest.length = 6) || decide (rest.length = 8)) &&
      rest.all (fun c => c.isDigit || (decide (97 ≤ c.toNat) && decide (c.toNat ≤ 102)) ||
        (decide (65 ≤ c.toNat) && decide (c.toNat ≤ 70)))
  | _ => false

/-- The registry state produced by the editorWarning.foreground and
editorWarning.border registrations of src/base.ts (lines 727-744),
starting from empty tables.  The hcDark default of the border is the
string Color.fromHex("#FFCC00").transparent(0.8) evaluates to. -/
def editorWarningSchemes : Schemes :=
  (registerColor "editorWarning.border"
    (some
      { light := none, dark := none,
        hcDark := some (.str (colorFromHexTransparent "#FFCC00" 0.8)),
        hcLight := some (.str "#") })
    "Border color of warning boxes in the editor." none none
    (registerColor "editorWarning.foreground"
      (some
        { light := some (.str "#BF8803"), dark := some (.str "#CCA700"),
          hcDark := some (.str "#FFD37"), hcLight := some (.str "#895503") })
      "Foreground color of warning squigglies in the editor." none none emptySchemes).2).2

/-- A cyclic lookup context: A refers to B and B refers to A. -/
def cyclicCtx : Ctx := [("A", .str "B"), ("B", .str "A")]

/-- The first truthy result of a list of resolution results, with errors
propagated: the specification-side reading of the OneOf loop. -/
def firstTruthyRes : List Res → Res
  | [] => .ok none
  | r :: rs =>
    match r with
    | .error e => .error e
    | .ok c => if strTruthy c then .ok c else firstTruthyRes rs

/-! ## Lookup lemmas for plain-object operations -/

theorem lookupKey_eq_none_of_any_eq_false {β : Type} {t : List (String × β)} {k : String}
    (h : t.any (fun p => decide (p.1 = k)) = false) : lookupKey t k = none := by
  induction t with
  | nil => rfl
  | cons p t ih =>
    simp only [List.any_cons, Bool.or_eq_false_iff, decide_eq_false_iff_not] at h
    simp [lookupKey, h.1, ih h.2]

theorem lookupKey_eq_none_of_not_mem {β : Type} {t : List (String × β)} {k : String}
    (h : k ∉ t.map Prod.fst) : lookupKey t k = none := by
  induction t with
  | nil => rfl
  | cons p t ih =>
    simp only [List.map_cons, List.mem_cons, not_or] at h
    have h1 : p.1 ≠ k := fun hh => h.1 hh.symm
    simp [lookupKey, h1, ih h.2]

theorem lookupKey_append_of_none {β : Type} {t₁ : List (String × β)} (t₂ : List (String × β))
    {k : String} (h : lookupKey t₁ k = none) : lookupKey (t₁ ++ t₂) k = lookupKey t₂ k := by
  induction t₁ with
  | nil => rfl
  | cons p t ih =>
    by_cases hp : p.1 = k
    · simp [lookupKey, hp] at h
    · simp only [lookupKey, hp, if_false, ite_false] at h ⊢
      simpa [lookupKey, hp] using ih h

theorem lookupKey_append_of_some {β : Type} {t₁ : List (String × β)} (t₂ : List (String × β))
    {k : String} {v : β} (h : lookupKey t₁ k = some v) : lookupKey (t₁ ++ t₂) k = some v := by
  induction t₁ with
  | nil => simp [lookupKey] at h
  | cons p t ih =>
    by_cases hp : p.1 = k
    · simp only [lookupKey, hp, if_true, ite_true] at h ⊢
      simpa using h
    · simp only [lookupKey, hp, if_false, ite_false] at h ⊢
      simpa [lookupKey, hp] using ih h

theorem lookupKey_map_set_of_any {β : Type} {t : List (String × β)} {k : String} (v : β)
    (h : t.any (fun p => decide (p.1 = k)) = true) :
    lookupKey (t.map (fun p => if p.1 = k then (k, v) else p)) k = some v := by
  induction t with
  | nil => simp at h
  | cons p t ih =>
    by_cases hp : p.1 = k
    · simp [lookupKey, hp]
    · simp only [List.any_cons, Bool.or_eq_true, decide_eq_true_eq] at h
      rcases h with h | h
    -- the head test failed, so the tail must contain the key
      · exact absurd h hp
      · simp [lookupKey, hp, ih h]

theorem lookupKey_map_set_ne {β : Type} {t : List (String × β)} {k j : String} (v : β)
    (h : j ≠ k) :
    lookupKey (t.map (fun p => if p.1 = k then (k, v) else p)) j = lookupKey t j := by
  induction t with
  | nil => rfl
  | cons p t ih =>
    rw [List.map_cons]
    by_cases hp : p.1 = k
    · have hkj : ¬(k = j) := fun hh => h hh.symm
      have hpj : ¬(p.1 = j) := by rw [hp]; exact hkj
      rw [if_pos hp]
      show (if (k, v).1 = j then some (k, v).2 else _) = _
      rw [if_neg hkj]
      simp only [lookupKey, hpj, if_false, ite_false]
      exact ih
    · rw [if_neg hp]
      simp only [lookupKey, ih]

theorem lookupKey_objSet_self {β : Type} (t : List (String × β)) (k : String) (v : β) :
    lookupKey (objSet t k v) k = some v := by
  unfold objSet
  by_cases h : t.any (fun p => decide (p.1 = k)) = true
  · rw [if_pos h]
    exact lookupKey_map_set_of_any v h
  · rw [if_neg h]
    have hn : lookupKey t k = none :=
      lookupKey_eq_none_of_any_eq_false (Bool.eq_false_iff.mpr h)
    rw [lookupKey_append_of_none _ hn]
    simp [lookupKey]

theorem lookupKey_objSet_ne {β : Type} (t : List (String × β)) (k j : String) (v : β)
    (h : j ≠ k) : lookupKey (objSet t k v) j = lookupKey t j := by
  unfold objSet
  by_cases hc : t.any (fun p => decide (p.1 = k)) = true
  · rw [if_pos hc]
    exact lookupKey_map_set_ne v h
  · rw [if_neg hc]
    cases hl : lookupKey t j with
    | some w => rw [lookupKey_append_of_some _ hl]
    | none =>
      rw [lookupKey_append_of_none _ hl]
      have : ¬(k = j) := fun hh => h hh.symm
      simp [lookupKey, this]

theorem lookupKey_jsSpread_of_none {β : Type} {b : List (String × β)} (a : List (String × β))
    {k : String} (h : lookupKey b k = none) : lookupKey (jsSpread a b) k = lookupKey a k := by
  induction b generalizing a with
  | nil => rfl
  | cons p t ih =>
    by_cases hp : p.1 = k
    · simp [lookupKey, hp] at h
    · have h2 : lookupKey t k = none := by simpa [lookupKey, hp] using h
      have step : jsSpread a (p :: t) = jsSpread (objSet a p.1 p.2) t := rfl
      rw [step, ih _ h2, lookupKey_objSet_ne _ _ _ _ (fun hh => hp hh.symm)]

theorem lookupKey_jsSpread_of_some {β : Type} {b : List (String × β)} (a : List (String × β))
    {k : String} {v : β} (hnd : (b.map Prod.fst).Nodup) (h : lookupKey b k = some v) :
    lookupKey (jsSpread a b) k = some v := by
  induction b generalizing a with
  | nil => simp [lookupKey] at h
  | cons p t ih =>
    have step : jsSpread a (p :: t) = jsSpread (objSet a p.1 p.2) t := rfl
    by_cases hp : p.1 = k
    · have hv : p.2 = v := by simpa [lookupKey, hp] using h
      have hmem : p.1 ∉ t.map Prod.fst := (List.nodup_cons.mp (by simpa using hnd)).1
      have hnone : lookupKey t k = none := lookupKey_eq_none_of_not_mem (hp ▸ hmem)
      rw [step, lookupKey_jsSpread_of_none _ hnone, hp, hv]
      exact lookupKey_objSet_self _ _ _
    · have h2 : lookupKey t k = some v := by simpa [lookupKey, hp] using h
      have hnd2 : (t.map Prod.fst).Nodup := (List.nodup_cons.mp (by simpa using hnd)).2
      rw [step]
      exact ih (objSet a p.1 p.2) hnd2 h2

theorem lookupKey_map_str (ov : List (String × String)) (k : String) :
    lookupKey (ov.map (fun p => (p.1, ColorValue.str p.2))) k =
      Option.map ColorValue.str (lookupKey ov k) := by
  induction ov with
  | nil => rfl
  | cons p t ih => by_cases h : p.1 = k <;> simp [lookupKey, h, ih]

theorem map_str_keys (ov : List (String × String)) :
    (ov.map (fun p => (p.1, ColorValue.str p.2))).map Prod.fst = ov.map Prod.fst := by
  induction ov with
  | nil => rfl
  | cons p t ih => simp [ih]

theorem lookupKey_applyDefault_ne (table : Ctx) (id j : String) (v : Option ColorValue)
    (h : j ≠ id) : lookupKey (applyDefault table id v) j = lookupKey table j := by
  cases v with
  | none => rfl
  | some c =>
    show lookupKey (if cvFalsy c then table else objSet table id c) j = _
    by_cases hf : cvFalsy c = true
    · rw [if_pos (by simpa using hf)]
    · rw [if_neg (by simpa using hf)]
      exact lookupKey_objSet_ne _ _ _ _ h

theorem oneOfLoop_eq_firstTruthy (rec : ColorValue → Res) (vs : List ColorValue) :
    oneOfLoop rec vs = firstTruthyRes (vs.map rec) := by
  induction vs with
  | nil => rfl
  | cons c cs ih =>
    simp only [oneOfLoop, List.map_cons, firstTruthyRes]
    cases rec c with
    | error e => rfl
    | ok col =>
      by_cases h : strTruthy col = true
      · simp [h]
      · simp [Bool.eq_false_iff.mpr h, ih]

theorem applyDefault_falsy (table : Ctx) (id : String) (v : Option ColorValue)
    (hf : jsFalsy v = true) : applyDefault table id v = table := by
  cases v with
  | none => rfl
  | some c =>
    show (if cvFalsy c then table else objSet table id c) = table
    rw [if_pos (by simpa [jsFalsy] using hf)]

/-! ## Sample data used by the witnesses -/

def sampleTokenColor (s : String) : TokenColor :=
  { scope := Sum.inl s,
    settings := { foreground := none, bold := none, italic := none, underline := none,
                  fontStyle := none } }

def derivedSampleTheme : VSCodeTheme :=
  { type := some .dark, name := "derived", colors := [("editor.background", "#111111")],
    tokenColors := [sampleTokenColor "Z"] }

def baseSampleTheme : VSCodeTheme :=
  { type := some .dark, name := "base",
    colors := [("editor.background", "#222222"), ("editor.foreground", "#333333")],
    tokenColors := [sampleTokenColor "X", sampleTokenColor "Y"] }

def sampleSchemes : Schemes :=
  { dark := [("a", .str "#111111"), ("b", .str "#222222")], hcDark := [], hcLight := [],
    light := [("a", .str "#333333")] }

def sampleDefaults : ColorDefaults :=
  { light := some (.str ""), dark := some (.str "#444444"), hcDark := none, hcLight := none }

/-! ## Claim theorems -/

/-- Claim C1: resolveColorValue maps null to undefined, returns a string
whose first character is the hash sign verbatim, and treats any other
string as an identifier: absent from the context gives undefined, present
recurses on the looked-up value. -/
theorem resolveColorValue_cases :
    (∀ (ctx : Ctx) (n : ℕ), resolveFuel (n + 1) .null ctx = .ok none) ∧
    (∀ (ctx : Ctx) (n : ℕ) (s : String), s.data.head? = some '#' →
      resolveFuel (n + 1) (.cv (.str s)) ctx = .ok (some s)) ∧
    (∀ (ctx : Ctx) (n : ℕ) (s : String), s.data.head? ≠ some '#' → lookupKey ctx s = none →
      resolveFuel (n + 2) (.cv (.str s)) ctx = .ok none) ∧
    (∀ (ctx : Ctx) (n : ℕ) (s : String) (v : ColorValue), s.data.head? ≠ some '#' →
      lookupKey ctx s = some v →
      resolveFuel (n + 1) (.cv (.str s)) ctx = resolveFuel n (.cv v) ctx) := by
  refine ⟨fun ctx n => rfl, fun ctx n s h => ?_, fun ctx n s h hl => ?_,
    fun ctx n s v h hl => ?_⟩
  · show (if s.data.head? = some '#' then Except.ok (some s)
      else resolveFuel n (ctxGet ctx s) ctx) = _
    rw [if_pos h]
  · show (if s.data.head? = some '#' then Except.ok (some s)
      else resolveFuel (n + 1) (ctxGet ctx s) ctx) = _
    rw [if_neg h]
    simp only [ctxGet, hl]
    rfl
  · show (if s.data.head? = some '#' then Except.ok (some s)
      else resolveFuel n (ctxGet ctx s) ctx) = _
    rw [if_neg h]
    simp only [ctxGet, hl]

theorem resolveColorValue_cases_witness :
    resolveFuel 1 .null [("ref", ColorValue.str "#abcdef")] = .ok none ∧
    resolveFuel 1 (.cv (.str "#fff")) [("ref", ColorValue.str "#abcdef")] = .ok (some "#fff") ∧
    resolveFuel 2 (.cv (.str "nope")) [("ref", ColorValue.str "#abcdef")] = .ok none ∧
    resolveFuel 2 (.cv (.str "ref")) [("ref", ColorValue.str "#abcdef")] =
      resolveFuel 1 (.cv (.str "#abcdef")) [("ref", ColorValue.str "#abcdef")] :=
  ⟨resolveColorValue_cases.1 _ 0,
   resolveColorValue_cases.2.1 _ 0 "#fff" (by decide),
   resolveColorValue_cases.2.2.1 _ 0 "nope" (by decide) rfl,
   resolveColorValue_cases.2.2.2 _ 1 "ref" (ColorValue.str "#abcdef") (by decide) rfl⟩

/-- Claim C2: in this program every resolution of an IfDefinedThenElse
transform calls theme.defines on a plain-object context that has no such
method, so it throws a TypeError instead of testing definedness and
resolving one branch; in particular the documented example crashes. -/
theorem ifDefinedThenElse_defines_crash :
    (∀ (n : ℕ) (ctx : Ctx) (i : String) (tv ev : ColorValue),
      resolveFuel (n + 1) (.cv (.transform (.ifDefinedThenElseT i tv ev))) ctx =
        .error .definesNotAFunction) ∧
    resolveFuel 2
      (.cv (.transform (.ifDefinedThenElseT "missingId" (.str "#fff") (.str "#000")))) [] =
      .error .definesNotAFunction :=
  ⟨fun _ _ _ _ _ => rfl, rfl⟩

/-- Claim C3: Transparent("#000000", 0.5) resolves to "#000000", not to a
color with alpha 0.5: setAlpha does set the instance alpha to 1/2, but
toHexString serializes only the six RGB digits, so the alpha channel is
discarded on output. -/
theorem transparent_drops_alpha :
    resolveFuel 2 (.cv (.transform (.transparentT (.str "#000000") (1/2)))) [] =
      .ok (some "#000000") ∧
    ((tinycolor "#000000").setAlpha (1/2)).a = 1/2 ∧
    "#000000" ≠ "#00000080" :=
  ⟨rfl, rfl, by decide⟩

set_option maxRecDepth 400000 in
/-- Claim C4: a LessProminent transform with both operands defined
produces a six-digit string whose alpha channel is not the transparency
argument: here LessProminent("#ffffff", "#ffffff", 0.5, 0.5) resolves to
"#ffffff", which parses back with alpha 1 rather than 1/2, because
toHexString discards the alpha that setAlpha(transparency) just set. -/
theorem lessProminent_drops_alpha :
    resolveFuel 2
      (.cv (.transform (.lessProminentT (.str "#ffffff") (.str "#ffffff") (1/2) (1/2)))) [] =
      .ok (some "#ffffff") ∧
    ((getDarkerColor (tinycolor "#ffffff") (tinycolor "#ffffff") (1/2)).setAlpha (1/2)).a = 1/2 ∧
    (tinycolor "#ffffff").a = 1 :=
  ⟨rfl, rfl, rfl⟩

/-- Claim C5: OneOf resolves its candidates in list order and returns the
first defined (truthy) result, undefined when all candidates are
undefined; in particular the two documented examples hold. -/
theorem oneOf_first_defined :
    (∀ (n : ℕ) (ctx : Ctx) (vs : List ColorValue),
      resolveFuel (n + 1) (.cv (.transform (.oneOfT vs))) ctx =
        firstTruthyRes (vs.map (fun v => resolveFuel n (.cv v) ctx))) ∧
    resolveFuel 3 (.cv (.transform (.oneOfT [.str "undefinedColor", .str "#ff0000"]))) [] =
      .ok (some "#ff0000") ∧
    resolveFuel 3 (.cv (.transform (.oneOfT [.str "undefinedColor", .str "alsoUndefined"]))) [] =
      .ok none :=
  ⟨fun n ctx vs => oneOfLoop_eq_firstTruthy _ vs, rfl, rfl⟩

/-- Claim C6: on the cyclic context where A maps to "B" and B maps to
"A", the resolver never produces a result at any recursion depth: every
amount of stack is exhausted, so the JavaScript original recurses
unboundedly instead of detecting the cycle and returning undefined. -/
theorem resolveColorValue_cycle_diverges (n : ℕ) :
    resolveFuel n (.cv (.str "A")) cyclicCtx = .error .stackOverflow ∧
    resolveFuel n (.cv (.str "B")) cyclicCtx = .error .stackOverflow := by
  induction n with
  | zero => exact ⟨rfl, rfl⟩
  | succ n ih =>
    have hA : resolveFuel (n + 1) (.cv (.str "A")) cyclicCtx =
        resolveFuel n (.cv (.str "B")) cyclicCtx := rfl
    have hB : resolveFuel (n + 1) (.cv (.str "B")) cyclicCtx =
        resolveFuel n (.cv (.str "A")) cyclicCtx := rfl
    exact ⟨hA.trans ih.2, hB.trans ih.1⟩

/-- Claim C7: the lookup context is the variant registry table shallow
copied and then overwritten entry by entry with the override map:
overridden identifiers read the override value, all other identifiers
read the registry value. -/
theorem themeColors_overlay_spec (base : Ctx) (ov : List (String × String))
    (hnd : (ov.map Prod.fst).Nodup) (k : String) :
    (∀ v : String, lookupKey ov k = some v →
      lookupKey (themeColors base ov) k = some (ColorValue.str v)) ∧
    (lookupKey ov k = none → lookupKey (themeColors base ov) k = lookupKey base k) := by
  constructor
  · intro v hv
    have h1 : lookupKey (ov.map (fun p => (p.1, ColorValue.str p.2))) k =
        some (ColorValue.str v) := by
      rw [lookupKey_map_str, hv]
      rfl
    have h2 : ((ov.map (fun p => (p.1, ColorValue.str p.2))).map Prod.fst).Nodup := by
      rw [map_str_keys]
      exact hnd
    exact lookupKey_jsSpread_of_some base h2 h1
  · intro hv
    have h1 : lookupKey (ov.map (fun p => (p.1, ColorValue.str p.2))) k = none := by
      rw [lookupKey_map_str, hv]
      rfl
    exact lookupKey_jsSpread_of_none base h1

theorem themeColors_overlay_spec_witness :
    lookupKey (themeColors [("x", ColorValue.str "#111111"), ("y", ColorValue.str "#222222")]
      [("x", "#333333")]) "x" = some (ColorValue.str "#333333") ∧
    lookupKey (themeColors [("x", ColorValue.str "#111111"), ("y", ColorValue.str "#222222")]
      [("x", "#333333")]) "y" =
      lookupKey [("x", ColorValue.str "#111111"), ("y", ColorValue.str "#222222")] "y" :=
  ⟨(themeColors_overlay_spec _ _ (by decide) "x").1 "#333333" rfl,
   (themeColors_overlay_spec _ _ (by decide) "y").2 rfl⟩

/-- Claim C8: the include merge keeps the derived color overrides on key
collisions and concatenates the token rule lists with the derived rules
first, so base rules X, Y and derived rule Z merge to Z, X, Y. -/
theorem includeMerge_spec :
    (∀ derived base : VSCodeTheme,
      (includeMerge derived base).tokenColors = derived.tokenColors ++ base.tokenColors) ∧
    (∀ derived base : VSCodeTheme, ∀ Z X Y : TokenColor,
      derived.tokenColors = [Z] → base.tokenColors = [X, Y] →
      (includeMerge derived base).tokenColors = [Z, X, Y]) ∧
    (∀ derived base : VSCodeTheme, ∀ k v : String,
      (derived.colors.map Prod.fst).Nodup → lookupKey derived.colors k = some v →
      lookupKey (includeMerge derived base).colors k = some v) ∧
    (∀ derived base : VSCodeTheme, ∀ k : String,
      lookupKey derived.colors k = none →
      lookupKey (includeMerge derived base).colors k = lookupKey base.colors k) := by
  refine ⟨fun derived base => rfl, fun derived base Z X Y hd hb => ?_,
    fun derived base k v hnd hv => ?_, fun derived base k hv => ?_⟩
  · show derived.tokenColors ++ base.tokenColors = [Z, X, Y]
    rw [hd, hb]
    rfl
  · exact lookupKey_jsSpread_of_some base.colors hnd hv
  · exact lookupKey_jsSpread_of_none base.colors hv

theorem includeMerge_spec_witness :
    (includeMerge derivedSampleTheme baseSampleTheme).tokenColors =
      [sampleTokenColor "Z", sampleTokenColor "X", sampleTokenColor "Y"] ∧
    lookupKey (includeMerge derivedSampleTheme baseSampleTheme).colors "editor.background" =
      some "#111111" ∧
    lookupKey (includeMerge derivedSampleTheme baseSampleTheme).colors "editor.foreground" =
      lookupKey baseSampleTheme.colors "editor.foreground" :=
  ⟨includeMerge_spec.2.1 _ _ _ _ _ rfl rfl,
   includeMerge_spec.2.2.1 _ _ "editor.background" "#111111" (by decide) rfl,
   includeMerge_spec.2.2.2 _ _ "editor.foreground" rfl⟩

/-- Claim C9: the resolver returns registered verbatim literals that are
not 6-digit or 8-digit hex: editorWarning.foreground in the hcDark
registry resolves to "#FFD37" (five hex digits) and editorWarning.border
in the hcLight registry resolves to "#". -/
theorem registry_literal_bad_hex :
    resolveFuel 2 (.cv (.str "editorWarning.foreground")) (editorWarningSchemes.get .hcDark) =
      .ok (some "#FFD37") ∧
    specBoundaryHexFormat "#FFD37" = false ∧
    resolveFuel 2 (.cv (.str "editorWarning.border")) (editorWarningSchemes.get .hcLight) =
      .ok (some "#") ∧
    specBoundaryHexFormat "#" = false :=
  ⟨rfl, rfl, rfl, rfl⟩

/-- Claim C10: registerColor writes at most the entries of the registered
identifier (every other identifier reads unchanged in every variant), and
a falsy but present per-variant default, such as the empty string, is
skipped, leaving that whole variant table unchanged. -/
theorem registerColor_frame_spec :
    (∀ (id : String) (defaults : Option ColorDefaults) (desc : String) (nt : Option Bool)
      (dep : Option String) (s : Schemes) (v : Variant) (j : String), j ≠ id →
      lookupKey (((registerColor id defaults desc nt dep s).2).get v) j =
        lookupKey (s.get v) j) ∧
    (∀ (id : String) (d : ColorDefaults) (desc : String) (nt : Option Bool)
      (dep : Option String) (s : Schemes) (v : Variant), jsFalsy (d.get v) = true →
      ((registerColor id (some d) desc nt dep s).2).get v = s.get v) := by
  constructor
  · intro id defaults desc nt dep s v j h
    cases defaults with
    | none => rfl
    | some d => cases v <;> exact lookupKey_applyDefault_ne _ _ _ _ h
  · intro id d desc nt dep s v hf
    cases v <;> exact applyDefault_falsy _ _ _ hf

theorem registerColor_frame_spec_witness :
    lookupKey
      (((registerColor "a" (some sampleDefaults) "sample" none none sampleSchemes).2).get .dark)
      "b" = lookupKey (sampleSchemes.get .dark) "b" ∧
    ((registerColor "a" (some sampleDefaults) "sample" none none sampleSchemes).2).get .light =
      sampleSchemes.get .light :=
  ⟨registerColor_frame_spec.1 "a" _ "sample" none none _ .dark "b" (by decide),
   registerColor_frame_spec.2 "a" sampleDefaults "sample" none none sampleSchemes .light rfl⟩

end VTC
